import Mathlib

/-!
ReceivingCheckScreen (partial receiving, step 2)

A shallow embedding of `src/js/components/receiving/ReceivingCheckScreen.jsx`:
the form tree (shipment → containers → shipment items), `validate`, the pack
label formatters of `TABLE_FIELDS`, and the component methods `onSave`,
`onSubmit`, `confirmReceive`, `cancelAllRemaining`, `saveValues` and `save`.

Conventions of the embedding.

* Leaves of the form tree are primitive JavaScript values (`JSVal`); quantities
  are JSON numbers, `null` or absent (`Quantity`), numbers being integers.
* Arrays that may be absent (`undefined`) are `Option (List _)`.
* Arrays written by index assignment (the error tree) keep their holes:
  `List (Option _)`, a hole reading as `undefined`.
* A component method is a function on `Screen`, the component instance together
  with `window.location` and the ordered trace of calls made to collaborators
  that live outside the file (spinner actions, `apiClient.post`, `confirmAlert`,
  `window.setFormValue`).
* The promise returned by `apiClient.post` is settled by the environment: the
  methods that wait on it take an `ApiOutcome`.
-/

namespace ReceivingCheckScreen

/-! ## JavaScript values -/

/-- Primitive JavaScript value at a leaf of the form tree. -/
inductive JSVal where
  | undefined
  | null
  | bool (b : Bool)
  | num (n : Int)
  | str (s : String)
  deriving DecidableEq, Repr

namespace JSVal

/-- ToBoolean: what `!v`, `v || w` and `v ? a : b` test. -/
def truthy : JSVal → Bool
  | undefined => false
  | null => false
  | bool b => b
  | num n => n != 0
  | str s => s != ""

/-- The expression `a || b`. -/
def or (a b : JSVal) : JSVal := if a.truthy then a else b

/-- Lodash `_.isNull(v)`: `v === null`. -/
def isNull : JSVal → Bool
  | null => true
  | _ => false

/-- The expression `v === 'lit'` for a string literal. -/
def strictEqStr (v : JSVal) (lit : String) : Bool :=
  match v with
  | str s => s == lit
  | _ => false

/-- String conversion of a template literal, `${v}`. -/
def toStr : JSVal → String
  | undefined => "undefined"
  | null => "null"
  | bool true => "true"
  | bool false => "false"
  | num n => toString n
  | str s => s

end JSVal

/-- Value of a quantity field: a JSON number, `null`, or absent. -/
inductive Quantity where
  | undefined
  | null
  | num (n : Int)
  deriving DecidableEq, Repr

namespace Quantity

/-- The comparison `q < 0` (`null` converts to `0`, `undefined` to `NaN`). -/
def ltZero : Quantity → Bool
  | num n => decide (n < 0)
  | _ => false

/-- The comparison `q > 0` (`null` converts to `0`, `undefined` to `NaN`). -/
def gtZero : Quantity → Bool
  | num n => decide (0 < n)
  | _ => false

end Quantity

/-! ## Form tree -/

/-- Reference object with the two keys the screen reads, `{ id, name }`. -/
structure NamedRef where
  id : JSVal
  name : JSVal
  deriving DecidableEq, Repr

/-- Product of a line, `{ productCode, name }`. -/
structure Product where
  productCode : JSVal
  name : JSVal
  deriving DecidableEq, Repr

/-- Value of `item.recipient`: absent, `null`, a reference object, or a string
(the serialised form writes `''`). -/
inductive Recipient where
  | undefined
  | null
  | ref (r : NamedRef)
  | str (s : String)
  deriving DecidableEq, Repr

/-- Lodash `_.get(item, 'recipient.id')` seen from the recipient value: the walk
stops at a nullish value and a string has no own `id`. -/
def Recipient.getId : Recipient → JSVal
  | .ref r => r.id
  | _ => .undefined

/-- One receivable line. -/
structure ShipmentItem where
  shipmentItemId : JSVal
  product : Product
  lotNumber : JSVal
  expirationDate : JSVal
  binLocation : NamedRef
  recipient : Recipient
  quantityReceiving : Quantity
  quantityRemaining : Quantity
  cancelRemaining : JSVal
  comment : JSVal
  deriving DecidableEq, Repr

/-- One row of `containers`: the pack and its parent (each possibly absent) and
the lines packed in it. -/
structure Container where
  container : Option NamedRef
  parentContainer : Option NamedRef
  shipmentItems : Option (List ShipmentItem)
  deriving DecidableEq, Repr

/-- The form values (`this.state.values`, and the values react-final-form hands
to `validate` and `onSubmit`). -/
structure Form where
  origin : Option NamedRef
  destination : Option NamedRef
  dateShipped : JSVal
  dateDelivered : JSVal
  shipmentStatus : JSVal
  receiptStatus : JSVal
  requisition : JSVal
  shipmentId : JSVal
  hasPartialReceivingSupport : JSVal
  containers : Option (List Container)
  deriving DecidableEq, Repr

/-- The object literal `{}`: every key absent. -/
def Form.empty : Form where
  origin := none
  destination := none
  dateShipped := .undefined
  dateDelivered := .undefined
  shipmentStatus := .undefined
  receiptStatus := .undefined
  requisition := .undefined
  shipmentId := .undefined
  hasPartialReceivingSupport := .undefined
  containers := none

/-- Containers of a form, an absent array counting as empty. -/
def Form.containerList (values : Form) : List Container := values.containers.getD []

/-- Lines of a container, an absent array counting as empty. -/
def Container.items (c : Container) : List ShipmentItem := c.shipmentItems.getD []

/-- The line at `containers[i].shipmentItems[j]`, if the form has one there. -/
def Form.itemAt (values : Form) (i j : Nat) : Option ShipmentItem :=
  match values.containerList[i]? with
  | none => none
  | some c => c.items[j]?

/-! ## Lodash and array helpers -/

/-- Index assignment `arr[k] = v` on a JavaScript array: in range it overwrites,
past the end it extends the array, leaving holes in between. -/
def arrayAssign {α : Type} (arr : List (Option α)) (k : Nat) (v : α) : List (Option α) :=
  if k < arr.length then arr.set k (some v)
  else arr ++ List.replicate (k - arr.length) none ++ [some v]

/-- Index read `arr[k]`: a hole or an index past the end reads as absent. -/
def arrayRead {α : Type} (arr : List (Option α)) (k : Nat) : Option α :=
  match arr[k]? with
  | some (some v) => some v
  | _ => none

/-- Iteration with index from position `k` on; the iteratee returns nothing, so
the loop never exits early. -/
def forEachFrom {σ α : Type} (f : σ → α → Nat → σ) : List α → Nat → σ → σ
  | [], _, s => s
  | x :: xs, k, s => forEachFrom f xs (k + 1) (f s x k)

/-- Lodash `_.forEach(collection, (value, key) => ...)` on an array that may be
absent; `s` is the state the iteratee mutates. -/
def lodashForEach {σ α : Type} (coll : Option (List α)) (f : σ → α → Nat → σ) (s : σ) : σ :=
  match coll with
  | none => s
  | some l => forEachFrom f l 0 s

/-- Lodash `_.map(collection, f)` on an array that may be absent: always an array. -/
def lodashMap {α β : Type} (coll : Option (List α)) (f : α → β) : List β :=
  match coll with
  | none => []
  | some l => l.map f

/-- Lodash `_.some(collection, p)` on an array that may be absent. -/
def lodashSome {α : Type} (coll : Option (List α)) (p : α → Bool) : Bool :=
  match coll with
  | none => false
  | some l => l.any p

/-- Lodash `_.size(collection)` on an array that may be absent. -/
def lodashSize {α : Type} (coll : Option (List α)) : Nat :=
  match coll with
  | none => 0
  | some l => l.length

/-! ## `validate` -/

/-- Message key of the required-field error. -/
def requiredFieldLabel : String := "react.default.error.requiredField.label"

/-- Message key of the negative-quantity error. -/
def quantityToReceiveNegativeLabel : String :=
  "react.partialReceiving.error.quantityToReceiveNegative.label"

/-- Error object of one line, `{ quantityReceiving: msg }`. -/
structure ItemError where
  quantityReceiving : String
  deriving DecidableEq, Repr

/-- Error object of one container, `{ shipmentItems: [...] }`. -/
structure ContainerError where
  shipmentItems : List (Option ItemError)
  deriving DecidableEq, Repr

/-- The object `errors` built by `validate`. -/
structure Errors where
  containers : List (Option ContainerError)
  dateDelivered : Option String
  deriving DecidableEq, Repr

/-- Body of the inner `_.forEach`: flags the line when `item.quantityReceiving < 0`.
`entry` is the object stored at `errors.containers[key]`. -/
def validateItem (entry : ContainerError) (item : ShipmentItem) (key2 : Nat) : ContainerError :=
  if item.quantityReceiving.ltZero then
    { entry with
      shipmentItems :=
        arrayAssign entry.shipmentItems key2 { quantityReceiving := quantityToReceiveNegativeLabel } }
  else entry

/-- Body of the outer `_.forEach`: `errors.containers[key] = { shipmentItems: [] }`,
then the inner loop fills that same object. -/
def validateContainer (errors : Errors) (container : Container) (key : Nat) : Errors :=
  let entry : ContainerError := { shipmentItems := [] }
  let entry := lodashForEach container.shipmentItems validateItem entry
  { errors with containers := arrayAssign errors.containers key entry }

/-- The function `validate(values)`. -/
def validate (values : Form) : Errors :=
  let errors : Errors := { containers := [], dateDelivered := none }
  let errors :=
    if !values.dateDelivered.truthy then { errors with dateDelivered := some requiredFieldLabel }
    else errors
  lodashForEach values.containers validateContainer errors

/-- The message at `errors.containers[i].shipmentItems[j].quantityReceiving`, absent
when any step of the path is. -/
def Errors.quantityReceivingAt (errors : Errors) (i j : Nat) : Option String :=
  match arrayRead errors.containers i with
  | none => none
  | some c =>
    match arrayRead c.shipmentItems j with
    | none => none
    | some e => some e.quantityReceiving

/-! ## Pack labels (`TABLE_FIELDS.containers.fields`) -/

/-- Lodash `_.get(row, 'container.name')` / `_.get(row, 'parentContainer.name')` seen
from the reference: absent when the reference is. -/
def getName (r : Option NamedRef) : JSVal :=
  match r with
  | none => .undefined
  | some r => r.name

/-- The `formatValue` of field `'parentContainer.name'` (pack level 1). -/
def formatValue_parentContainerName (fieldValue : Container) : JSVal :=
  ((getName fieldValue.parentContainer).or (getName fieldValue.container)).or (.str "Unpacked")

/-- The `formatValue` of field `'container.name'` (pack level 2). -/
def formatValue_containerName (fieldValue : Container) : JSVal :=
  if (getName fieldValue.parentContainer).truthy then
    (getName fieldValue.container).or (.str "")
  else .str ""

/-! ## The component -/

/-- The one closure the file passes to `save` as `callback`: it sets
`completed: true` and assigns `window.location`, reading `requisition` and
`shipmentId` from the `formValues` it closes over. -/
inductive Callback where
  | completeAndShow (formValues : Form)
  deriving DecidableEq, Repr

/-- The one closure the file attaches to a dialog button:
`() => this.save(formValues, callback)`. -/
inductive OnClick where
  | save (formValues : Form) (callback : Option Callback)
  deriving DecidableEq, Repr

/-- A button of the confirmation dialog, `{ label, onClick }`. -/
structure Button where
  label : String
  onClick : Option OnClick
  deriving DecidableEq, Repr

/-- The options object given to `confirmAlert`. -/
structure ConfirmOptions where
  title : String
  message : String
  buttons : List Button
  deriving DecidableEq, Repr

/-- Calls the component makes to collaborators outside the file, in order. -/
inductive Effect where
  | showSpinner
  | hideSpinner
  | post (url : String) (payload : Form)
  | confirmAlert (options : ConfirmOptions)
  | setFormValue (field : String) (containers : List Container)
  | previousPage (values : Form)
  deriving DecidableEq, Repr

/-- How the promise of `apiClient.post` settles: resolved, carrying
`parseResponse(response.data.data)`, or rejected. -/
inductive ApiOutcome where
  | resolved (parsed : Form)
  | rejected
  deriving DecidableEq, Repr

/-- A thrown JavaScript exception. -/
inductive JSError where
  | typeError (message : String)
  deriving DecidableEq, Repr

/-- The props of the component; `shipmentId` is `match.params.shipmentId`. -/
structure Props where
  initialValues : Form
  completed : Bool
  hasBinLocationSupport : Bool
  hasPartialReceivingSupport : Bool
  shipmentId : String
  translate : String → String → String

/-- The component state, `this.state`. -/
structure State where
  completed : Bool
  values : Form
  deriving DecidableEq, Repr

/-- The component instance and what its methods touch: `window.location` (absent
until assigned), the confirmation dialog currently open, and the trace of outside
calls. -/
structure Screen where
  props : Props
  state : State
  location : Option String
  dialog : Option ConfirmOptions
  trace : List Effect

namespace Screen

/-- Records one outside call. -/
def emit (scr : Screen) (e : Effect) : Screen := { scr with trace := scr.trace ++ [e] }

/-- The call `this.setState({ values })`. -/
def setStateValues (scr : Screen) (values : Form) : Screen :=
  { scr with state := { scr.state with values := values } }

/-- The call `this.setState({ completed })`. -/
def setStateCompleted (scr : Screen) (completed : Bool) : Screen :=
  { scr with state := { scr.state with completed := completed } }

end Screen

/-- The constructor: state from props, nothing done yet. -/
def construct (props : Props) : Screen where
  props := props
  state := { completed := props.completed, values := props.initialValues }
  location := none
  dialog := none
  trace := []

/-! ### Member lookup on `this` -/

/-- Methods the class body declares `static`: properties of the constructor
function, not of its instances. -/
def staticMethods : List String := ["cancelRemaining"]

/-- Methods the class body declares without `static`: properties of the prototype. -/
def prototypeMethods : List String :=
  ["constructor", "onSave", "onSubmit", "confirmReceive", "cancelAllRemaining",
   "saveAndExit", "saveValues", "save", "prevPage", "render"]

/-- Own properties of an instance: those `React.Component` sets and those the
constructor assigns. -/
def ownProperties : List String :=
  ["props", "context", "refs", "updater", "state", "onSave", "cancelAllRemaining"]

/-- Properties inherited from `React.Component.prototype` and `Object.prototype`. -/
def inheritedProperties : List String :=
  ["isReactComponent", "setState", "forceUpdate",
   "hasOwnProperty", "isPrototypeOf", "propertyIsEnumerable", "toLocaleString",
   "toString", "valueOf"]

/-- Whether `this.name` finds a property along the prototype chain of an instance. -/
def resolvesOnThis (name : String) : Bool :=
  decide (name ∈ ownProperties ++ prototypeMethods ++ inheritedProperties)

/-- The static method `ReceivingCheckScreen.cancelRemaining(shipmentItem)`. -/
def cancelRemaining (shipmentItem : ShipmentItem) : ShipmentItem :=
  { shipmentItem with cancelRemaining := .bool shipmentItem.quantityRemaining.gtZero }

/-- The value of the expression `this.cancelRemaining` inside an instance method:
the method if the lookup finds it, absent (`undefined`) otherwise. -/
def thisCancelRemaining : Option (ShipmentItem → ShipmentItem) :=
  if resolvesOnThis "cancelRemaining" then some cancelRemaining else none

/-- Calling the value of `this.name`: a `TypeError` when it is `undefined`. -/
def callMember {α β : Type} (name : String) (member : Option (α → β)) (arg : α) :
    Except JSError β :=
  match member with
  | some f => .ok (f arg)
  | none => .error (.typeError ("this." ++ name ++ " is not a function"))

/-- The array method `Array.prototype.map` with a callback that may throw: elements are visited in
order and the first exception aborts the map. -/
def mapThrowing {α β : Type} (f : α → Except JSError β) : List α → Except JSError (List β)
  | [] => .ok []
  | x :: xs =>
    match f x with
    | .error e => .error e
    | .ok y =>
      match mapThrowing f xs with
      | .error e => .error e
      | .ok ys => .ok (y :: ys)

/-! ### Methods -/

/-- The `payload` built by `saveValues`. -/
def saveValuesPayload (formValues : Form) : Form :=
  { formValues with
    containers := some (lodashMap formValues.containers fun container =>
      { container with
        shipmentItems := some (lodashMap container.shipmentItems fun item =>
          if !item.recipient.getId.truthy then { item with recipient := .str "" }
          else item) }) }

/-- The URL `saveValues` posts to. -/
def saveUrl (props : Props) : String :=
  "/openboxes/api/partialReceiving/" ++ props.shipmentId ++ "?stepNumber=2"

/-- The method `saveValues(formValues)` up to the point where it returns the promise of
`apiClient.post(url, flattenRequest(payload))`; the trace records `payload`. -/
def saveValues (formValues : Form) (scr : Screen) : Screen :=
  (scr.emit .showSpinner).emit (.post (saveUrl scr.props) (saveValuesPayload formValues))

/-- The method `save(formValues, callback)`, with the settlement of the request. -/
def save (formValues : Form) (callback : Option (Screen → Screen)) (api : ApiOutcome)
    (scr : Screen) : Screen :=
  let scr := scr.emit .showSpinner
  let scr := saveValues formValues scr
  match api with
  | .resolved parsed =>
    let scr := scr.emit .hideSpinner
    let scr := scr.setStateValues Form.empty
    let scr := scr.setStateValues parsed
    match callback with
    | some cb => cb scr
    | none => scr
  | .rejected => scr.emit .hideSpinner

/-- The path `/openboxes/stockMovement/show/${requisition || shipmentId}`. -/
def showUrl (formValues : Form) : String :=
  "/openboxes/stockMovement/show/" ++ (formValues.requisition.or formValues.shipmentId).toStr

/-- Runs a `callback` closure. -/
def Callback.run : Callback → Screen → Screen
  | .completeAndShow formValues, scr =>
    let scr := scr.setStateCompleted true
    { scr with location := some (showUrl formValues) }

/-- Runs a button's `onClick` closure. -/
def OnClick.run : OnClick → ApiOutcome → Screen → Screen
  | .save formValues callback, api, scr =>
    ReceivingCheckScreen.save formValues (callback.map Callback.run) api scr

/-- The method `onSave()`. -/
def onSave (api : ApiOutcome) (scr : Screen) : Screen :=
  save scr.state.values none api scr

/-- The options object `confirmReceive` hands to `confirmAlert`: a Yes button that
saves, a No button without handler. -/
def confirmOptions (props : Props) (formValues : Form) : ConfirmOptions where
  title := props.translate "react.partialReceiving.message.confirmReceive.label"
    "Confirm receiving"
  message := props.translate "react.partialReceiving.confirmReceive.message"
    "Are you sure you want to receive? There are some lines with empty bin locations."
  buttons :=
    [ { label := props.translate "react.default.yes.label" "Yes"
        onClick := some (.save { formValues with receiptStatus := .str "COMPLETED" }
          (some (.completeAndShow formValues))) },
      { label := props.translate "react.default.no.label" "No"
        onClick := none } ]

/-- The method `confirmReceive(formValues)`: opens the dialog and returns. -/
def confirmReceive (formValues : Form) (scr : Screen) : Screen :=
  let options := confirmOptions scr.props formValues
  { scr.emit (.confirmAlert options) with dialog := some options }

/-- The local `isBinLocationChosen` of `onSubmit`. -/
def isBinLocationChosen (formValues : Form) : Bool :=
  !lodashSome formValues.containers fun container =>
    lodashSome container.shipmentItems fun shipmentItem => shipmentItem.binLocation.id.isNull

/-- The method `onSubmit(formValues)`; `api` settles the request of the branch that
saves at once. -/
def onSubmit (formValues : Form) (api : ApiOutcome) (scr : Screen) : Screen :=
  if !isBinLocationChosen formValues && scr.props.hasBinLocationSupport
      && !(formValues.shipmentStatus.strictEqStr "RECEIVED") then
    confirmReceive formValues scr
  else
    save { formValues with receiptStatus := .str "COMPLETED" }
      (some (Callback.run (.completeAndShow formValues))) api scr

/-- The user presses button `k` of the open dialog: the dialog closes and the
button's `onClick`, if it has one, runs. -/
def clickDialogButton (k : Nat) (api : ApiOutcome) (scr : Screen) : Screen :=
  match scr.dialog with
  | none => scr
  | some options =>
    let closed := { scr with dialog := none }
    match options.buttons[k]? with
    | some { label := _, onClick := some handler } => handler.run api closed
    | _ => closed

/-- The method `cancelAllRemaining()`, with `member` the value of
`this.cancelRemaining`. -/
def cancelAllRemainingWith (member : Option (ShipmentItem → ShipmentItem)) (scr : Screen) :
    Except JSError Screen :=
  let applied : Except JSError (List Container) :=
    match scr.state.values.containers with
    | none => .ok []
    | some items =>
      mapThrowing (fun item =>
        let updated : Except JSError (List ShipmentItem) :=
          match item.shipmentItems with
          | none => .ok []
          | some shipmentItems => mapThrowing (callMember "cancelRemaining" member) shipmentItems
        match updated with
        | .error e => .error e
        | .ok shipmentItems => .ok { item with shipmentItems := some shipmentItems }) items
  match applied with
  | .error e => .error e
  | .ok containers => .ok (scr.emit (.setFormValue "containers" containers))

/-- The method `cancelAllRemaining()`. -/
def cancelAllRemaining (scr : Screen) : Except JSError Screen :=
  cancelAllRemainingWith thisCancelRemaining scr

/-- The method `saveAndExit(formValues)`, with the settlement of the request. -/
def saveAndExit (formValues : Form) (api : ApiOutcome) (scr : Screen) : Screen :=
  let scr := saveValues formValues scr
  match api with
  | .resolved _ => { scr with location := some (showUrl formValues) }
  | .rejected => scr.emit .hideSpinner

/-- The method `prevPage(values)`, with the settlement of the request. -/
def prevPage (values : Form) (api : ApiOutcome) (scr : Screen) : Screen :=
  let scr := saveValues values scr
  match api with
  | .resolved _ => scr.emit (.previousPage values)
  | .rejected => scr

/-! ### Controls of `render` -/

/-- The `disabled` attribute shared by the Save, Save-and-exit, Cancel-all-remaining
and Receive-shipment buttons. -/
def controlsDisabled (scr : Screen) : Bool :=
  scr.state.completed || !decide (lodashSize scr.state.values.containers ≠ 0)

/-- A click on the Save button: `this.onSave()` unless the button is disabled. -/
def clickSave (api : ApiOutcome) (scr : Screen) : Screen :=
  if controlsDisabled scr then scr else onSave api scr

/-- A click on the Cancel-all-remaining button: the button exists only when
`this.state.values.hasPartialReceivingSupport` is truthy, and does nothing when
disabled. -/
def clickCancelAllRemaining (scr : Screen) : Except JSError Screen :=
  if scr.state.values.hasPartialReceivingSupport.truthy && !controlsDisabled scr then
    cancelAllRemaining scr
  else .ok scr

/-! ## Auxiliary definitions for the statements -/

/-- Whether the line at index `n` of `items` has `quantityReceiving < 0`. -/
def negativeAt (items : List ShipmentItem) (n : Nat) : Bool :=
  match items[n]? with
  | some item => item.quantityReceiving.ltZero
  | none => false

/-- The entry `validate` stores at `errors.containers[key]` for one container. -/
def containerEntry (c : Container) : ContainerError :=
  lodashForEach c.shipmentItems validateItem { shipmentItems := [] }

/-- What `saveValues` transmits for one line. -/
def serializeItem (item : ShipmentItem) : ShipmentItem :=
  if item.recipient.getId.truthy then item else { item with recipient := .str "" }

/-- Modelled from the spec: the loading indicator behind the `showSpinner` and
`hideSpinner` actions, whose module is outside the file. Replaying the outside calls
in order, `showSpinner` shows the indicator, `hideSpinner` dismisses it and any other
call leaves it as it is. -/
def loadingIndicatorShown (initially : Bool) (trace : List Effect) : Bool :=
  trace.foldl
    (fun shown e =>
      match e with
      | .showSpinner => true
      | .hideSpinner => false
      | _ => shown)
    initially

/-! ## Sample data -/

/-- A line with no bin location and no recipient chosen, nothing received yet and
five units remaining. -/
def sampleItem : ShipmentItem where
  shipmentItemId := .str "ff80818155df9de40155df9e31000001"
  product := { productCode := .str "AB12", name := .str "Gloves" }
  lotNumber := .null
  expirationDate := .null
  binLocation := { id := .null, name := .null }
  recipient := .ref { id := .null, name := .null }
  quantityReceiving := .num 0
  quantityRemaining := .num 5
  cancelRemaining := .bool false
  comment := .null

/-- The same line once a bin location and a recipient are chosen. -/
def binnedItem : ShipmentItem :=
  { sampleItem with
    binLocation := { id := .str "bin1", name := .str "A-01" }
    recipient := .ref { id := .num 42, name := .str "Jane" } }

/-- A pack named "Box 1" without parent, holding `items`. -/
def sampleContainer (items : List ShipmentItem) : Container where
  container := some { id := .str "c1", name := .str "Box 1" }
  parentContainer := none
  shipmentItems := some items

/-- A pending shipment with one pack holding `items`. -/
def sampleForm (items : List ShipmentItem) : Form where
  origin := some { id := .str "o1", name := .str "Depot" }
  destination := some { id := .str "d1", name := .str "Clinic" }
  dateShipped := .str "08/20/2018"
  dateDelivered := .str "08/25/2018"
  shipmentStatus := .str "SHIPPED"
  receiptStatus := .str "PENDING"
  requisition := .undefined
  shipmentId := .str "s1"
  hasPartialReceivingSupport := .bool true
  containers := some [sampleContainer items]

/-- Props of a screen opened on `sampleForm items` at a location with bin and
partial-receiving support; `translate` answers the default message. -/
def sampleProps (items : List ShipmentItem) : Props where
  initialValues := sampleForm items
  completed := false
  hasBinLocationSupport := true
  hasPartialReceivingSupport := true
  shipmentId := "s1"
  translate := fun _ defaultMessage => defaultMessage

/-! ## Arrays with holes and the loops of `validate` -/

theorem arrayAssign_length {α : Type} (arr : List (Option α)) (k : Nat) (v : α) :
    (arrayAssign arr k v).length = max arr.length (k + 1) := by
  unfold arrayAssign
  split
  · simp; omega
  · simp; omega

theorem arrayRead_arrayAssign {α : Type} (arr : List (Option α)) (k j : Nat) (v : α) :
    arrayRead (arrayAssign arr k v) j = if j = k then some v else arrayRead arr j := by
  unfold arrayRead arrayAssign
  by_cases hk : k < arr.length
  · simp only [hk, if_true]
    by_cases hj : j = k
    · subst hj; simp [List.getElem?_set, hk]
    · simp [List.getElem?_set, hj, Ne.symm hj]
  · simp only [hk, if_false]
    have hk' : arr.length ≤ k := Nat.le_of_not_lt hk
    by_cases hj : j = k
    · subst hj
      simp [List.getElem?_append_right, hk']
    · simp only [hj, if_false]
      by_cases hj2 : j < arr.length
      · rw [List.append_assoc, List.getElem?_append_left hj2]
      · have hj3 : arr.length ≤ j := Nat.le_of_not_lt hj2
        rw [List.append_assoc, List.getElem?_append_right hj3, List.getElem?_eq_none (l := arr) hj3]
        by_cases hj4 : j < k
        · rw [List.getElem?_append_left (by simp; omega)]
          simp [List.getElem?_replicate]
        · rw [List.getElem?_eq_none (by simp; omega)]

theorem arrayAssign_at_length {α : Type} (arr : List (Option α)) (v : α) :
    arrayAssign arr arr.length v = arr ++ [some v] := by
  simp [arrayAssign]

theorem validateItem_read (entry : ContainerError) (item : ShipmentItem) (k j : Nat) :
    arrayRead (validateItem entry item k).shipmentItems j =
      if j = k ∧ item.quantityReceiving.ltZero = true then
        some { quantityReceiving := quantityToReceiveNegativeLabel }
      else arrayRead entry.shipmentItems j := by
  unfold validateItem
  by_cases h : item.quantityReceiving.ltZero = true
  · simp [h, arrayRead_arrayAssign]
  · simp [h]

theorem forEachFrom_validateItem_read (items : List ShipmentItem) :
    ∀ (k : Nat) (entry : ContainerError) (j : Nat),
      arrayRead (forEachFrom validateItem items k entry).shipmentItems j =
        if k ≤ j ∧ negativeAt items (j - k) = true then
          some { quantityReceiving := quantityToReceiveNegativeLabel }
        else arrayRead entry.shipmentItems j := by
  induction items with
  | nil => intro k entry j; simp [forEachFrom, negativeAt]
  | cons x xs ih =>
    intro k entry j
    simp only [forEachFrom]
    rw [ih (k + 1) (validateItem entry x k) j, validateItem_read]
    by_cases h1 : k + 1 ≤ j
    · have h2 : k ≤ j := by omega
      have h3 : j - k = (j - (k + 1)) + 1 := by omega
      have h4 : negativeAt (x :: xs) (j - k) = negativeAt xs (j - (k + 1)) := by
        rw [h3]; simp [negativeAt]
      have h5 : j ≠ k := by omega
      simp [h1, h2, h4, h5]
    · by_cases h2 : j = k
      · subst h2
        simp [negativeAt]
      · have h3 : ¬ k ≤ j := by omega
        simp [h1, h2, h3]

theorem forEachFrom_validateItem_length (items : List ShipmentItem) :
    ∀ (k : Nat) (entry : ContainerError),
      (forEachFrom validateItem items k entry).shipmentItems.length
        ≤ max entry.shipmentItems.length (k + items.length) := by
  induction items with
  | nil => intro k entry; simp [forEachFrom]
  | cons x xs ih =>
    intro k entry
    simp only [forEachFrom]
    refine le_trans (ih (k + 1) (validateItem entry x k)) ?_
    have h : (validateItem entry x k).shipmentItems.length ≤ max entry.shipmentItems.length (k + 1) := by
      unfold validateItem
      split
      · simp [arrayAssign_length]
      · simp
    simp only [List.length_cons]
    omega

theorem containerEntry_read (c : Container) (j : Nat) :
    arrayRead (containerEntry c).shipmentItems j =
      if negativeAt c.items j = true then
        some { quantityReceiving := quantityToReceiveNegativeLabel }
      else none := by
  unfold containerEntry lodashForEach Container.items
  cases h : c.shipmentItems with
  | none => simp [negativeAt, arrayRead]
  | some l =>
    simp only [Option.getD_some]
    rw [forEachFrom_validateItem_read]
    simp [arrayRead]

theorem containerEntry_length (c : Container) :
    (containerEntry c).shipmentItems.length ≤ c.items.length := by
  unfold containerEntry lodashForEach Container.items
  cases h : c.shipmentItems with
  | none => simp
  | some l =>
    have := forEachFrom_validateItem_length l 0 { shipmentItems := [] }
    simpa using this

theorem forEachFrom_validateContainer (cs : List Container) :
    ∀ (errors : Errors),
      forEachFrom validateContainer cs errors.containers.length errors =
        { containers := errors.containers ++ cs.map (fun c => some (containerEntry c))
          dateDelivered := errors.dateDelivered } := by
  induction cs with
  | nil => intro errors; simp [forEachFrom]
  | cons c cs ih =>
    intro errors
    simp only [forEachFrom]
    have h : (validateContainer errors c errors.containers.length) =
        { containers := errors.containers ++ [some (containerEntry c)]
          dateDelivered := errors.dateDelivered } := by
      simp [validateContainer, arrayAssign_at_length, containerEntry]
    have hl : errors.containers.length + 1 =
        (validateContainer errors c errors.containers.length).containers.length := by
      rw [h]; simp
    rw [hl, ih]
    rw [h]
    simp

theorem validate_eq (values : Form) :
    validate values =
      { containers := values.containerList.map (fun c => some (containerEntry c))
        dateDelivered :=
          if values.dateDelivered.truthy then none else some requiredFieldLabel } := by
  unfold validate lodashForEach Form.containerList
  cases h : values.containers with
  | none => cases hd : values.dateDelivered.truthy <;> simp
  | some cs =>
    cases hd : values.dateDelivered.truthy
    · have := forEachFrom_validateContainer cs { containers := [], dateDelivered := some requiredFieldLabel }
      simpa using this
    · have := forEachFrom_validateContainer cs { containers := [], dateDelivered := none }
      simpa using this

/-! ## Validation -/

theorem quantityReceivingAt_validate (values : Form) (i j : Nat) :
    (validate values).quantityReceivingAt i j =
      match values.itemAt i j with
      | some item =>
        if item.quantityReceiving.ltZero then some quantityToReceiveNegativeLabel else none
      | none => none := by
  rw [validate_eq]
  unfold Errors.quantityReceivingAt Form.itemAt
  cases hc : values.containerList[i]? with
  | none => simp [arrayRead, hc]
  | some c =>
    have h1 : arrayRead (values.containerList.map fun c => some (containerEntry c)) i
        = some (containerEntry c) := by
      simp [arrayRead, hc]
    simp only [h1, containerEntry_read, negativeAt]
    rcases Option.eq_none_or_eq_some (c.items[j]?) with hj | ⟨item, hj⟩
    · simp [hj]
    · cases hq : item.quantityReceiving.ltZero <;> simp [hj, hq]

theorem ltZero_iff (q : Quantity) : q.ltZero = true ↔ ∃ n : Int, q = .num n ∧ n < 0 := by
  cases q <;> simp [Quantity.ltZero]

/-- C4: `validate` records the negative-quantity message at
`errors.containers[i].shipmentItems[j].quantityReceiving` exactly when the form has a
line at `containers[i].shipmentItems[j]` whose `quantityReceiving` is a number below
zero; at every other position (a line with `quantityReceiving >= 0`, or no line at
all) nothing is recorded. -/
theorem validate_flags_exactly_negative_items (values : Form) (i j : Nat) :
    ((validate values).quantityReceivingAt i j = some quantityToReceiveNegativeLabel ↔
      ∃ item n, values.itemAt i j = some item ∧ item.quantityReceiving = .num n ∧ n < 0) ∧
    ((¬ ∃ item n, values.itemAt i j = some item ∧ item.quantityReceiving = .num n ∧ n < 0) →
      (validate values).quantityReceivingAt i j = none) := by
  rw [quantityReceivingAt_validate]
  cases h : values.itemAt i j with
  | none => simp
  | some item =>
    cases hq : item.quantityReceiving.ltZero
    · have hn : ¬ ∃ n : Int, item.quantityReceiving = .num n ∧ n < 0 := by
        rw [← ltZero_iff, hq]; simp
      simp [hn, hq]
    · have hn : ∃ n : Int, item.quantityReceiving = .num n ∧ n < 0 := (ltZero_iff _).1 hq
      simp [hn, hq]

/-- C5: `validate` puts the required-field message on `errors.dateDelivered` exactly
when the form's `dateDelivered` is falsy, leaves `errors.dateDelivered` absent exactly
when it is truthy, and the containers of the form have no influence on it. -/
theorem validate_dateDelivered_required (values : Form) :
    ((validate values).dateDelivered = some requiredFieldLabel ↔
      values.dateDelivered.truthy = false) ∧
    ((validate values).dateDelivered = none ↔ values.dateDelivered.truthy = true) ∧
    (∀ containers : Option (List Container),
      (validate { values with containers := containers }).dateDelivered =
        (validate values).dateDelivered) := by
  refine ⟨?_, ?_, ?_⟩
  · rw [validate_eq]; cases h : values.dateDelivered.truthy <;> simp
  · rw [validate_eq]; cases h : values.dateDelivered.truthy <;> simp
  · intro containers
    rw [validate_eq, validate_eq]

/-- C9 (as stated, refuted): for the form with one pack holding one line that has no
error, `errors.containers[0].shipmentItems` is the empty array, so the line at
position (0, 0) has no entry and the array does not have one entry per line. -/
theorem validate_no_entry_for_valid_item :
    (sampleForm [sampleItem]).itemAt 0 0 = some sampleItem ∧
    (validate (sampleForm [sampleItem])).containers = [some { shipmentItems := [] }] ∧
    ¬ (∀ (i : Nat) (c : Container), (sampleForm [sampleItem]).containerList[i]? = some c →
        ∃ e, (validate (sampleForm [sampleItem])).containers[i]? = some (some e) ∧
          e.shipmentItems.length = c.items.length) := by
  refine ⟨by decide, by decide, ?_⟩
  intro h
  obtain ⟨e, he, hlen⟩ := h 0 (sampleContainer [sampleItem]) (by decide)
  have he' : e = { shipmentItems := [] } := by
    have h2 : (validate (sampleForm [sampleItem])).containers[0]?
        = some (some { shipmentItems := [] }) := by decide
    rw [h2] at he
    simpa using he.symm
  subst he'
  revert hlen
  decide

/-- C9 (amended): `errors.containers` has exactly one entry per container of the
form, each an object with a `shipmentItems` array; that array is never longer than the
container's list of lines and holds an entry at position `j` exactly when line
`(i, j)` has `quantityReceiving < 0`; a line without error gets no entry. -/
theorem validate_shape (values : Form) :
    (validate values).containers.length = values.containerList.length ∧
    (∀ (i : Nat) (c : Container), values.containerList[i]? = some c →
      ∃ e, (validate values).containers[i]? = some (some e) ∧
        e.shipmentItems.length ≤ c.items.length ∧
        ∀ j, (arrayRead e.shipmentItems j).isSome = negativeAt c.items j) := by
  rw [validate_eq]
  refine ⟨by simp, ?_⟩
  intro i c hc
  refine ⟨containerEntry c, by simp [hc], containerEntry_length c, ?_⟩
  intro j
  rw [containerEntry_read]
  cases negativeAt c.items j <;> simp

/-! ## Pack labels -/

/-- C10 (as stated, refuted): the pack "Box 1" has no parent container, yet its
pack-level-1 label is its own name, not 'Unpacked'. -/
theorem formatValue_named_pack_not_unpacked :
    (sampleContainer []).parentContainer = none ∧
    formatValue_parentContainerName (sampleContainer []) = .str "Box 1" ∧
    formatValue_parentContainerName (sampleContainer []) ≠ .str "Unpacked" := by
  decide

/-- C10 (amended): for a row whose `parentContainer.name` is absent (or otherwise
falsy), the pack-level-1 label is the row's own `container.name` when that is
present, and 'Unpacked' only when it is absent too; the pack-level-2 label is
empty in both cases. -/
theorem formatValue_without_parent (row : Container)
    (hParent : (getName row.parentContainer).truthy = false) :
    formatValue_parentContainerName row =
      (if (getName row.container).truthy then getName row.container else .str "Unpacked") ∧
    formatValue_containerName row = .str "" := by
  simp [formatValue_parentContainerName, formatValue_containerName, JSVal.or, hParent]

/-- Witness of `formatValue_without_parent`: a row with neither parent nor own pack. -/
theorem formatValue_without_parent_witness :
    (getName (none : Option NamedRef)).truthy = false ∧
    formatValue_parentContainerName
        { container := none, parentContainer := none, shipmentItems := some [sampleItem] }
      = .str "Unpacked" ∧
    formatValue_containerName
        { container := none, parentContainer := none, shipmentItems := some [sampleItem] }
      = .str "" :=
  ⟨rfl, formatValue_without_parent
    { container := none, parentContainer := none, shipmentItems := some [sampleItem] } rfl⟩

/-! ## Serialisation -/

theorem saveValuesPayload_containers (formValues : Form) :
    (saveValuesPayload formValues).containerList =
      formValues.containerList.map fun c =>
        { c with shipmentItems := some (c.items.map serializeItem) } := by
  have hitem : (fun item : ShipmentItem =>
      if (!item.recipient.getId.truthy) = true then { item with recipient := .str "" }
      else item) = serializeItem := by
    funext item
    unfold serializeItem
    cases item.recipient.getId.truthy <;> simp
  unfold saveValuesPayload Form.containerList
  simp only [hitem, Option.getD_some]
  cases formValues.containers with
  | none => simp [lodashMap]
  | some cs =>
    simp only [lodashMap, Option.getD_some]
    apply List.map_congr_left
    intro c _
    cases h : c.shipmentItems <;> simp [Container.items, h]

/-- C6: the payload of `saveValues` keeps every root field of the form, has as many
containers as the form and, at each position, a container with the same pack, the
same parent and as many lines; the line at each position is the form's line with
`recipient` replaced by `''` when `recipient.id` is absent or otherwise falsy (as in
`{id: null}`), and the form's line itself when `recipient.id` is present (as in
`{id: 42}`). -/
theorem saveValuesPayload_spec (formValues : Form) :
    { saveValuesPayload formValues with containers := formValues.containers } = formValues ∧
    (saveValuesPayload formValues).containerList.length = formValues.containerList.length ∧
    (∀ (i : Nat) (c : Container), formValues.containerList[i]? = some c →
      ∃ c', (saveValuesPayload formValues).containerList[i]? = some c' ∧
        c'.container = c.container ∧ c'.parentContainer = c.parentContainer ∧
        c'.items.length = c.items.length ∧
        ∀ (j : Nat) (item : ShipmentItem), c.items[j]? = some item →
          ∃ item', c'.items[j]? = some item' ∧
            (item.recipient.getId.truthy = false →
              item' = { item with recipient := .str "" }) ∧
            (item.recipient.getId.truthy = true → item' = item)) ∧
    serializeItem sampleItem = { sampleItem with recipient := .str "" } ∧
    serializeItem binnedItem = binnedItem := by
  refine ⟨rfl, ?_, ?_, by decide, by decide⟩
  · rw [saveValuesPayload_containers]; simp
  · intro i c hc
    rw [saveValuesPayload_containers]
    refine ⟨{ c with shipmentItems := some (c.items.map serializeItem) }, by simp [hc], rfl, rfl,
      by simp [Container.items], ?_⟩
    intro j item hj
    refine ⟨serializeItem item, by simp [Container.items] at hj ⊢; simp [hj], ?_, ?_⟩
    · intro h; simp [serializeItem, h]
    · intro h; simp [serializeItem, h]

/-! ## Saving -/

/-- C7: when the request made by `save` is rejected, the component state (`values`
and `completed`) is the state before the call, `window.location` and the dialog are
untouched, the outcome does not depend on the callback (it is never run), the
outside calls made are the two `showSpinner`, the post, and last `hideSpinner`, and
the loading indicator ends dismissed. -/
theorem save_rejected (formValues : Form) (callback : Option (Screen → Screen)) (scr : Screen) :
    (save formValues callback .rejected scr).state = scr.state ∧
    (save formValues callback .rejected scr).location = scr.location ∧
    (save formValues callback .rejected scr).dialog = scr.dialog ∧
    save formValues callback .rejected scr = save formValues none .rejected scr ∧
    (save formValues callback .rejected scr).trace =
      scr.trace ++ [.showSpinner, .showSpinner,
        .post (saveUrl scr.props) (saveValuesPayload formValues), .hideSpinner] ∧
    (∀ initially : Bool,
      loadingIndicatorShown initially (save formValues callback .rejected scr).trace = false) := by
  have htrace : (save formValues callback .rejected scr).trace =
      scr.trace ++ [.showSpinner, .showSpinner,
        .post (saveUrl scr.props) (saveValuesPayload formValues), .hideSpinner] := by
    simp [save, saveValues, Screen.emit]
  refine ⟨rfl, rfl, rfl, rfl, htrace, ?_⟩
  intro initially
  rw [htrace]
  simp [loadingIndicatorShown, List.foldl_append]

/-! ## Submission -/

theorem isBinLocationChosen_eq_false_iff (formValues : Form) :
    isBinLocationChosen formValues = false ↔
      ∃ c ∈ formValues.containerList, ∃ item ∈ c.items, item.binLocation.id = .null := by
  have hnull : ∀ v : JSVal, v.isNull = true ↔ v = .null := by
    intro v; cases v <;> simp [JSVal.isNull]
  have hinner : ∀ c : Container,
      lodashSome c.shipmentItems (fun shipmentItem => shipmentItem.binLocation.id.isNull) = true ↔
        ∃ item ∈ c.items, item.binLocation.id = .null := by
    intro c
    unfold lodashSome Container.items
    cases c.shipmentItems <;> simp [hnull]
  unfold isBinLocationChosen Form.containerList
  cases formValues.containers with
  | none => simp [lodashSome]
  | some cs =>
    have houter : lodashSome (some cs) (fun container : Container =>
        lodashSome container.shipmentItems fun shipmentItem => shipmentItem.binLocation.id.isNull)
        = cs.any (fun container : Container =>
        lodashSome container.shipmentItems fun shipmentItem => shipmentItem.binLocation.id.isNull) :=
      rfl
    rw [houter]
    simp [hinner]

/-- C1: with bin-location support, a shipment status other than 'RECEIVED' and at
least one line whose `binLocation.id` is `null`, `onSubmit` only opens the
confirmation dialog: it does what `confirmReceive` does, the one outside call it
makes is `confirmAlert` (no spinner, no post), and state and `window.location` are
untouched. Nothing is posted when the user then answers No; `save` runs, with
`receiptStatus` 'COMPLETED', only when the user answers Yes. -/
theorem onSubmit_missing_bin_asks_confirmation (formValues : Form) (api : ApiOutcome)
    (scr : Screen)
    (hSupport : scr.props.hasBinLocationSupport = true)
    (hStatus : formValues.shipmentStatus ≠ .str "RECEIVED")
    (hBin : ∃ c ∈ formValues.containerList, ∃ item ∈ c.items, item.binLocation.id = .null) :
    onSubmit formValues api scr = confirmReceive formValues scr ∧
    (onSubmit formValues api scr).trace =
      scr.trace ++ [.confirmAlert (confirmOptions scr.props formValues)] ∧
    (onSubmit formValues api scr).dialog = some (confirmOptions scr.props formValues) ∧
    (onSubmit formValues api scr).state = scr.state ∧
    (onSubmit formValues api scr).location = scr.location ∧
    (∀ answer : ApiOutcome,
      (clickDialogButton 1 answer (onSubmit formValues api scr)).trace =
          scr.trace ++ [.confirmAlert (confirmOptions scr.props formValues)] ∧
      (clickDialogButton 1 answer (onSubmit formValues api scr)).state = scr.state) ∧
    (∀ answer : ApiOutcome,
      clickDialogButton 0 answer (onSubmit formValues api scr) =
        save { formValues with receiptStatus := .str "COMPLETED" }
          (some (Callback.run (.completeAndShow formValues))) answer
          { confirmReceive formValues scr with dialog := none }) := by
  have hchosen : isBinLocationChosen formValues = false :=
    (isBinLocationChosen_eq_false_iff formValues).2 hBin
  have hstat : formValues.shipmentStatus.strictEqStr "RECEIVED" = false := by
    cases h : formValues.shipmentStatus with
    | str s =>
      have : s ≠ "RECEIVED" := fun hs => hStatus (by rw [h, hs])
      simp [JSVal.strictEqStr, this]
    | _ => simp [JSVal.strictEqStr]
  have hsub : onSubmit formValues api scr = confirmReceive formValues scr := by
    simp [onSubmit, hchosen, hSupport, hstat]
  rw [hsub]
  refine ⟨rfl, rfl, rfl, rfl, rfl, ?_, ?_⟩
  · intro answer
    simp [clickDialogButton, confirmReceive, confirmOptions, Screen.emit]
  · intro answer
    simp [clickDialogButton, confirmReceive, confirmOptions, Screen.emit, OnClick.run]

/-- Witness of `onSubmit_missing_bin_asks_confirmation`: a pending shipment whose only
line has no bin location, submitted at a location with bin support. -/
theorem onSubmit_missing_bin_asks_confirmation_witness :
    (construct (sampleProps [sampleItem])).props.hasBinLocationSupport = true ∧
    (sampleForm [sampleItem]).shipmentStatus ≠ .str "RECEIVED" ∧
    (∃ c ∈ (sampleForm [sampleItem]).containerList, ∃ item ∈ c.items,
      item.binLocation.id = .null) ∧
    (onSubmit (sampleForm [sampleItem]) .rejected (construct (sampleProps [sampleItem]))).trace =
      [.confirmAlert (confirmOptions (sampleProps [sampleItem]) (sampleForm [sampleItem]))] :=
  ⟨rfl, by decide, ⟨sampleContainer [sampleItem], by decide, sampleItem, by decide, rfl⟩,
    (onSubmit_missing_bin_asks_confirmation (sampleForm [sampleItem]) .rejected
      (construct (sampleProps [sampleItem])) rfl (by decide)
      ⟨sampleContainer [sampleItem], by decide, sampleItem, by decide, rfl⟩).2.1⟩

/-- C2: when every line of every container has a non-null `binLocation.id`,
`onSubmit` is the call `save({...formValues, receiptStatus: 'COMPLETED'}, callback)`,
whatever the bin-location support and the shipment status are: no dialog is opened,
no `confirmAlert` is among the calls made, and what is posted is the payload of the
submitted values with `receiptStatus` 'COMPLETED'. -/
theorem onSubmit_all_bins_saves_directly (formValues : Form) (api : ApiOutcome) (scr : Screen)
    (hBin : ∀ c ∈ formValues.containerList, ∀ item ∈ c.items, item.binLocation.id ≠ .null) :
    onSubmit formValues api scr =
      save { formValues with receiptStatus := .str "COMPLETED" }
        (some (Callback.run (.completeAndShow formValues))) api scr ∧
    (onSubmit formValues api scr).dialog = scr.dialog ∧
    (onSubmit formValues api scr).trace =
      scr.trace ++ [.showSpinner, .showSpinner,
        .post (saveUrl scr.props)
          (saveValuesPayload { formValues with receiptStatus := .str "COMPLETED" }),
        .hideSpinner] := by
  have hchosen : isBinLocationChosen formValues = true := by
    cases h : isBinLocationChosen formValues with
    | true => rfl
    | false =>
      obtain ⟨c, hc, item, hi, hnull⟩ := (isBinLocationChosen_eq_false_iff formValues).1 h
      exact absurd hnull (hBin c hc item hi)
  have hsub : onSubmit formValues api scr =
      save { formValues with receiptStatus := .str "COMPLETED" }
        (some (Callback.run (.completeAndShow formValues))) api scr := by
    simp [onSubmit, hchosen]
  rw [hsub]
  refine ⟨rfl, ?_, ?_⟩
  · cases api <;>
      simp [save, saveValues, Screen.emit, Screen.setStateValues, Callback.run,
        Screen.setStateCompleted]
  · cases api <;>
      simp [save, saveValues, Screen.emit, Screen.setStateValues, Callback.run,
        Screen.setStateCompleted]

/-- Witness of `onSubmit_all_bins_saves_directly`: the only line has a bin location;
the values are posted at once with `receiptStatus` 'COMPLETED' and no dialog opens. -/
theorem onSubmit_all_bins_saves_directly_witness :
    (∀ c ∈ (sampleForm [binnedItem]).containerList, ∀ item ∈ c.items,
      item.binLocation.id ≠ .null) ∧
    (onSubmit (sampleForm [binnedItem]) (.resolved (sampleForm [binnedItem]))
        (construct (sampleProps [binnedItem]))).trace =
      [.showSpinner, .showSpinner,
        .post "/openboxes/api/partialReceiving/s1?stepNumber=2"
          { sampleForm [binnedItem] with receiptStatus := .str "COMPLETED" },
        .hideSpinner] ∧
    (onSubmit (sampleForm [binnedItem]) (.resolved (sampleForm [binnedItem]))
        (construct (sampleProps [binnedItem]))).dialog = none :=
  have h := onSubmit_all_bins_saves_directly (sampleForm [binnedItem])
    (.resolved (sampleForm [binnedItem])) (construct (sampleProps [binnedItem])) (by decide)
  ⟨by decide, h.2.2, h.2.1⟩

/-! ## Cancelling the remaining quantities -/

theorem cancelRemaining_spec (shipmentItem : ShipmentItem) :
    ((cancelRemaining shipmentItem).cancelRemaining = .bool true ↔
      ∃ n : Int, shipmentItem.quantityRemaining = .num n ∧ 0 < n) ∧
    ((cancelRemaining shipmentItem).cancelRemaining = .bool false ↔
      ¬ ∃ n : Int, shipmentItem.quantityRemaining = .num n ∧ 0 < n) ∧
    { cancelRemaining shipmentItem with cancelRemaining := shipmentItem.cancelRemaining }
      = shipmentItem := by
  refine ⟨?_, ?_, rfl⟩
  · cases h : shipmentItem.quantityRemaining <;> simp [cancelRemaining, Quantity.gtZero, h]
  · cases h : shipmentItem.quantityRemaining <;> simp [cancelRemaining, Quantity.gtZero, h]

theorem mapThrowing_ok {α β : Type} (f : α → β) (l : List α) :
    mapThrowing (fun x => (.ok (f x) : Except JSError β)) l = .ok (l.map f) := by
  induction l with
  | nil => rfl
  | cons x xs ih => simp [mapThrowing, ih]

theorem mapThrowing_error_of_mem {α β : Type} (f : α → Except JSError β) (e : JSError)
    (hf : ∀ y e', f y = .error e' → e' = e) (l : List α) (x : α) (hx : x ∈ l)
    (hfx : f x = .error e) : mapThrowing f l = .error e := by
  induction l with
  | nil => cases hx
  | cons y ys ih =>
    simp only [mapThrowing]
    cases hy : f y with
    | error e' => simp [hf y e' hy]
    | ok r =>
      have hxs : x ∈ ys := by
        rcases List.mem_cons.1 hx with h | h
        · subst h; rw [hfx] at hy; cases hy
        · exact h
      simp [ih hxs]

/-- The message of the `TypeError` raised by calling `this.cancelRemaining`. -/
theorem callMember_cancelRemaining (shipmentItem : ShipmentItem) :
    callMember "cancelRemaining" thisCancelRemaining shipmentItem =
      .error (.typeError "this.cancelRemaining is not a function") := by
  rfl

/-- The method `cancelAllRemaining` throws as soon as the tree holds one line:
`cancelRemaining` is a static method, so `this.cancelRemaining` is `undefined` in an instance method. -/
theorem cancelAllRemaining_throws_of_item (scr : Screen) (c : Container) (item : ShipmentItem)
    (hc : c ∈ scr.state.values.containerList) (hitem : item ∈ c.items) :
    cancelAllRemaining scr = .error (.typeError "this.cancelRemaining is not a function") := by
  have hnone : thisCancelRemaining = none := rfl
  unfold cancelAllRemaining cancelAllRemainingWith
  rw [hnone]
  unfold Form.containerList at hc
  cases hcs : scr.state.values.containers with
  | none => rw [hcs] at hc; simp at hc
  | some cs =>
    rw [hcs] at hc
    simp only [Option.getD_some] at hc
    simp only
    rw [mapThrowing_error_of_mem _ (.typeError "this.cancelRemaining is not a function") ?hf
      cs c hc ?hfx]
    case hf =>
      intro y e' hy
      cases hys : y.shipmentItems with
      | none => simp [hys] at hy
      | some l =>
        cases l with
        | nil => simp [hys, mapThrowing] at hy
        | cons a as =>
          simp [hys, mapThrowing, callMember] at hy
          rw [← hy]
    case hfx =>
      unfold Container.items at hitem
      cases hci : c.shipmentItems with
      | none => rw [hci] at hitem; simp at hitem
      | some l =>
        cases l with
        | nil => rw [hci] at hitem; simp at hitem
        | cons a as => simp [mapThrowing, callMember]

/-- With the static method supplied as the callee, `cancelAllRemaining` succeeds: it
leaves the component state alone and hands `window.setFormValue` the containers with
`cancelRemaining` applied to every line. -/
theorem cancelAllRemainingWith_static (scr : Screen) :
    cancelAllRemainingWith (some cancelRemaining) scr =
      .ok (scr.emit (.setFormValue "containers"
        (scr.state.values.containerList.map fun c =>
          { c with shipmentItems := some (c.items.map cancelRemaining) }))) := by
  unfold cancelAllRemainingWith Form.containerList
  cases scr.state.values.containers with
  | none => rfl
  | some cs =>
    have hinner : (fun item : Container =>
        match (match item.shipmentItems with
          | none => (.ok [] : Except JSError (List ShipmentItem))
          | some shipmentItems =>
            mapThrowing (callMember "cancelRemaining" (some cancelRemaining)) shipmentItems) with
        | .error e => (.error e : Except JSError Container)
        | .ok shipmentItems => .ok { item with shipmentItems := some shipmentItems }) =
        fun item => .ok { item with shipmentItems := some (item.items.map cancelRemaining) } := by
      funext item
      have hcall : callMember "cancelRemaining" (some cancelRemaining) =
          fun x => (.ok (cancelRemaining x) : Except JSError ShipmentItem) := rfl
      cases h : item.shipmentItems with
      | none => simp [Container.items, h]
      | some l => simp [Container.items, h, hcall, mapThrowing_ok]
    simp only [hinner, mapThrowing_ok, Option.getD_some]

/-- C3 (failing input): on a screen whose one pack holds one line with five units
remaining, `cancelAllRemaining` does not complete: it throws the `TypeError` of
calling `this.cancelRemaining`, through the button as well; the static method itself
would have set the line's `cancelRemaining` to `true`. -/
theorem cancelAllRemaining_throws_on_sample :
    cancelAllRemaining (construct (sampleProps [sampleItem])) =
      .error (.typeError "this.cancelRemaining is not a function") ∧
    clickCancelAllRemaining (construct (sampleProps [sampleItem])) =
      .error (.typeError "this.cancelRemaining is not a function") ∧
    cancelRemaining sampleItem = { sampleItem with cancelRemaining := .bool true } := by
  refine ⟨rfl, rfl, by decide⟩

/-- C8 (failing input): on the same screen the bulk cancellation throws and changes
nothing; and even when the static method is supplied as the callee, the cancelled
lines go to `window.setFormValue` only, `this.state.values` stays as it was, and the
Save button then posts the line with `cancelRemaining` still `false` although its
`quantityRemaining` is 5. -/
theorem onSave_after_cancelAllRemaining_posts_stale_flag :
    clickCancelAllRemaining (construct (sampleProps [sampleItem])) =
      .error (.typeError "this.cancelRemaining is not a function") ∧
    (∃ scr, cancelAllRemainingWith (some cancelRemaining) (construct (sampleProps [sampleItem]))
        = .ok scr ∧
      scr.state = (construct (sampleProps [sampleItem])).state ∧
      (clickSave .rejected scr).trace =
        [.setFormValue "containers"
            [sampleContainer [{ sampleItem with cancelRemaining := .bool true }]],
          .showSpinner, .showSpinner,
          .post "/openboxes/api/partialReceiving/s1?stepNumber=2"
            (sampleForm [{ sampleItem with recipient := .str "", cancelRemaining := .bool false }]),
          .hideSpinner]) ∧
    (clickSave .rejected (construct (sampleProps [sampleItem]))).trace =
      [.showSpinner, .showSpinner,
        .post "/openboxes/api/partialReceiving/s1?stepNumber=2"
          (sampleForm [{ sampleItem with recipient := .str "", cancelRemaining := .bool false }]),
        .hideSpinner] ∧
    sampleItem.quantityRemaining = .num 5 := by
  refine ⟨rfl, ⟨_, cancelAllRemainingWith_static _, rfl, by decide⟩, by decide, rfl⟩

end ReceivingCheckScreen
